import Mathlib

/-!
Verification of the makgora algebraic domain-modeling core.

This file gives a shallow embedding, in Lean 4, of the core containers and
the immutable entity base of the repository:

* `Result` embeds `src/shared/primitives/result.py` (`Ok` / `Err`);
* `Maybe` embeds `src/shared/primitives/maybe.py` (`Some` / the `Nothing`
  singleton);
* `Tx` embeds `src/shared/modeling/tx.py` (writer-style transaction);
* `DomainError` and the error constructors embed
  `src/shared/modeling/exceptions.py`;
* `Entity` and its transitions embed `src/shared/modeling/entity.py`;
* the validator combinators embed `src/shared/modeling/value_object.py`.

Modeling conventions:

* Python `None` is `Option.none`; a Python value of a nullable type is an
  `Option`.  A raised exception is modeled with `Except` (the positional
  constructor call in `Maybe.from_optional` raises `TypeError`).
* Python `datetime` is modeled by `Datetime` below: an integer instant plus
  the tzinfo/utcoffset information the awareness checks inspect.  Comparison
  of instants models Python's comparison of timezone-aware datetimes.
* Python `tuple` event logs are Lean lists; Python dict/kwarg change sets are
  association lists in insertion order (kwarg keys are distinct in Python).
* Subclass-specific (non-reserved) entity fields are modeled as a total map
  `String → V`; `dataclasses.replace` on them is pointwise update.  UUID
  generation is not modeled: the identifier is caller-supplied, as the code
  permits via its optional `id` argument.
-/

namespace Makgora

/-- Embeds `Result` of `src/shared/primitives/result.py`: a success `Ok` or a
failure `Err`, mutually exclusive. -/
inductive Result (α ε : Type) where
  | Ok : α → Result α ε
  | Err : ε → Result α ε
deriving DecidableEq, Repr

namespace Result

variable {α β γ ε ε₂ : Type}

/-- Embeds `Ok.is_ok` / `Err.is_ok`. -/
def is_ok : Result α ε → Bool
  | Ok _ => true
  | Err _ => false

/-- Embeds `Result.is_err`: `not self.is_ok()`. -/
def is_err (r : Result α ε) : Bool :=
  ! r.is_ok

/-- Embeds `Ok.map` / `Err.map`: applies `f` to the success payload only. -/
def map (r : Result α ε) (f : α → β) : Result β ε :=
  match r with
  | Ok v => Ok (f v)
  | Err e => Err e

/-- Embeds `Ok.and_then` / `Err.and_then`: sequences a fallible step,
failures short-circuit. -/
def and_then (r : Result α ε) (f : α → Result β ε) : Result β ε :=
  match r with
  | Ok v => f v
  | Err e => Err e

/-- Embeds `Ok.map_err` / `Err.map_err`: transforms the failure payload
only. -/
def map_err (r : Result α ε) (f : ε → ε₂) : Result α ε₂ :=
  match r with
  | Ok v => Ok v
  | Err e => Err (f e)

/-- Embeds `Ok.unwrap_or` / `Err.unwrap_or`. -/
def unwrap_or (r : Result α ε) (d : α) : α :=
  match r with
  | Ok v => v
  | Err _ => d

end Result

/-- A Python exception escaping a call, as a value: the `TypeError` raised
by a positional call to a `kw_only` dataclass constructor. -/
inductive PyExn where
  | typeError
deriving DecidableEq, Repr

/-- Embeds `Maybe` of `src/shared/primitives/maybe.py`: the `Some` dataclass
or the `Nothing` singleton (`_Nothing`). -/
inductive Maybe (α : Type) where
  | Some : α → Maybe α
  | Nothing : Maybe α
deriving DecidableEq, Repr

namespace Maybe

variable {α β γ : Type}

/-- Embeds `Some.is_some` / `_Nothing.is_some`. -/
def is_some : Maybe α → Bool
  | Some _ => true
  | Nothing => false

/-- Embeds `Maybe.is_nothing`: `not self.is_some()`. -/
def is_nothing (m : Maybe α) : Bool :=
  ! m.is_some

/-- Embeds `Some.map` / `_Nothing.map`. -/
def map (m : Maybe α) (f : α → β) : Maybe β :=
  match m with
  | Some v => Some (f v)
  | Nothing => Nothing

/-- Embeds `Some.and_then` / `_Nothing.and_then`. -/
def and_then (m : Maybe α) (f : α → Maybe β) : Maybe β :=
  match m with
  | Some v => f v
  | Nothing => Nothing

/-- Embeds `Some.unwrap_or` / `_Nothing.unwrap_or`. -/
def unwrap_or (m : Maybe α) (d : α) : α :=
  match m with
  | Some v => v
  | Nothing => d

/-- Embeds `Maybe.to_optional`: `self.unwrap_or(None)`.  The payload type is
nullable (`Option α`), with Python `None` as `Option.none`. -/
def to_optional (m : Maybe (Option α)) : Option α :=
  m.unwrap_or none

/-- Embeds `Maybe.from_optional` as written: `Some(value) if value is not
None else Nothing`.  `Some` is a `kw_only=True` dataclass, so the positional
call `Some(value)` raises `TypeError` for every non-`None` value; the raise
is modeled as `Except.error`. -/
def from_optional (value : Option α) : Except PyExn (Maybe (Option α)) :=
  match value with
  | some _ => Except.error PyExn.typeError
  | none => Except.ok Nothing

end Maybe

/-- Embeds `Tx` of `src/shared/modeling/tx.py`: a new state paired with an
ordered, append-only event log.  `Ev` is the (open) event payload type. -/
structure Tx (Ev α : Type) where
  state : α
  events : List Ev
deriving DecidableEq, Repr

namespace Tx

variable {Ev α β γ : Type}

/-- Embeds `Tx.map`: transforms the state only, events pass through. -/
def map (t : Tx Ev α) (f : α → β) : Tx Ev β :=
  { state := f t.state, events := t.events }

/-- Embeds `Tx.bind`: adopts the state of `f self.state` and appends its
events after the current events. -/
def bind (t : Tx Ev α) (f : α → Tx Ev β) : Tx Ev β :=
  let nxt := f t.state
  { state := nxt.state, events := t.events ++ nxt.events }

/-- Embeds `Tx.append`: same state, the given events appended after the
existing ones. -/
def append (t : Tx Ev α) (more : List Ev) : Tx Ev α :=
  { state := t.state, events := t.events ++ more }

/-- Embeds `Tx.combine`: adopts `other.state`, events are
`self.events ++ other.events`. -/
def combine (t other : Tx Ev α) : Tx Ev α :=
  { state := other.state, events := t.events ++ other.events }

end Tx

/-- Embeds the `tx` helper: builds a `Tx` from a state and an event list. -/
def tx {Ev α : Type} (state : α) (events : List Ev) : Tx Ev α :=
  { state := state, events := events }

/-- Embeds `combine_all`: a left fold of `Tx.combine` over `rest`, starting
from `first` (`acc = first; for t in rest: acc = acc.combine(t)`). -/
def combine_all {Ev α : Type} (first : Tx Ev α) (rest : List (Tx Ev α)) : Tx Ev α :=
  rest.foldl Tx.combine first

/-- Embeds `DomainError` of `src/shared/modeling/exceptions.py`: an immutable
(code, message) pair. -/
structure DomainError where
  code : String
  message : String
deriving DecidableEq, Repr

/-- Embeds `tz_naive_err`: the shared `_TZ_NAIVE` error. -/
def tz_naive_err : DomainError :=
  { code := "timestamp_naive", message := "datetime must be timezone-aware" }

/-- Embeds `order_err`: the shared `_ORDER` error. -/
def order_err : DomainError :=
  { code := "timestamp_order", message := "updated_at must be ≤ now" }

/-- Embeds `archived_modify_err`: the shared `_ARCHIVED_MOD` error. -/
def archived_modify_err : DomainError :=
  { code := "archived_entity", message := "archived entity cannot be modified" }

/-- Embeds `vo_empty_err`: the shared `_VO_EMPTY` error. -/
def vo_empty_err : DomainError :=
  { code := "vo_empty", message := "빈 문자열은 허용되지 않습니다." }

/-- Inserts a string into a strictly sorted list, skipping duplicates.  Used
to embed Python's `sorted(set(fields))` over strings. -/
def insertSortedDedup (x : String) : List String → List String
  | [] => [x]
  | y :: ys =>
    if x = y then y :: ys
    else if x < y then x :: y :: ys
    else y :: insertSortedDedup x ys

/-- Embeds Python's `sorted(set(l))` for a list of strings: the strictly
increasing enumeration of the distinct elements of `l`. -/
def sortedDedup (l : List String) : List String :=
  l.foldr insertSortedDedup []

/-- Embeds `immutable_field_err`: code `immutable_field`, message built from
`", ".join(sorted(set(fields)))`. -/
def immutable_field_err (fields : List String) : DomainError :=
  { code := "immutable_field",
    message := "immutable fields cannot be changed: "
      ++ String.intercalate ", " (sortedDedup fields) }

/-- Embeds Python `datetime` as far as the entity code inspects it:
`instant` is the point on the global timeline used by comparisons of aware
datetimes; `tzinfo` is `none` when the datetime has no tzinfo object, and
`some off` when it has one whose `utcoffset()` returns `off` (where `off`
itself is `none` for a tzinfo that reports no offset). -/
structure Datetime where
  instant : Int
  tzinfo : Option (Option Int)
deriving DecidableEq, Repr

/-- Embeds `datetime.utcoffset()`: `None` when there is no tzinfo, otherwise
whatever the tzinfo reports. -/
def Datetime.utcoffset (d : Datetime) : Option Int :=
  d.tzinfo.bind id

/-- The condition `dt.tzinfo is None or dt.utcoffset() is None` guarding
every timestamp in `entity.py` (a naive datetime). -/
def Datetime.isNaive (d : Datetime) : Prop :=
  d.tzinfo = none ∨ d.utcoffset = none

instance (d : Datetime) : Decidable d.isNaive := by
  unfold Datetime.isNaive; infer_instance

/-- Embeds `_RESERVED_FIELDS` of `src/shared/modeling/entity.py`. -/
def reservedFields : List String :=
  ["id", "version", "created_at", "updated_at", "archived_at"]

/-- Embeds the `bad` list computed inside `Entity.update` and
`_sanitize_changes`: the change keys that hit the reserved-field set, in
order of appearance. -/
def badFields {V : Type} (changes : List (String × V)) : List String :=
  (changes.map Prod.fst).filter (fun k => reservedFields.contains k)

/-- Embeds the `Entity` dataclass of `src/shared/modeling/entity.py`.  The
five base fields are as in the source; `extra` models the concrete
subclass's non-reserved fields as a total map from field name to value
(`dataclasses.replace` updates it pointwise). -/
structure Entity (V : Type) where
  id : Nat
  version : Int
  created_at : Datetime
  updated_at : Datetime
  archived_at : Option Datetime
  extra : String → V

namespace Entity

variable {V : Type}

/-- Embeds `dataclasses.replace(self, **changes)` restricted to the
subclass's non-reserved fields: each change is applied in order. -/
def applyChanges (extra : String → V) (changes : List (String × V)) : String → V :=
  changes.foldl (fun acc kv => fun k => if k = kv.1 then kv.2 else acc k) extra

/-- Embeds `Entity.create`: rejects a naive `now`, otherwise builds a fresh
Active entity.  The identifier is caller-supplied (the source draws a
`uuid4()` when none is passed); `extra` is the subclass's initial field
map. -/
def create (now : Datetime) (i : Nat) (extra : String → V) : Result (Entity V) DomainError :=
  if now.isNaive then Result.Err tz_naive_err
  else Result.Ok
    { id := i, version := 1, created_at := now, updated_at := now,
      archived_at := none, extra := extra }

/-- Embeds `Entity.update`: the archived guard, the empty-changes no-op, the
reserved-field guard, the naive-timestamp guard and the order guard, in the
source's order, then `replace(self, **changes, version=self.version + 1,
updated_at=now)`. -/
def update (e : Entity V) (now : Datetime) (changes : List (String × V)) :
    Result (Entity V) DomainError :=
  if e.archived_at ≠ none then Result.Err archived_modify_err
  else if changes.isEmpty then Result.Ok e
  else if badFields changes ≠ [] then Result.Err (immutable_field_err (badFields changes))
  else if now.isNaive then Result.Err tz_naive_err
  else if now.instant < e.updated_at.instant then Result.Err order_err
  else Result.Ok
    { e with version := e.version + 1, updated_at := now,
             extra := applyChanges e.extra changes }

/-- Embeds `Entity.archive`: no-op if already archived, otherwise the naive
and order guards, then `replace(self, archived_at=now,
version=self.version + 1, updated_at=now)`. -/
def archive (e : Entity V) (now : Datetime) : Result (Entity V) DomainError :=
  if e.archived_at ≠ none then Result.Ok e
  else if now.isNaive then Result.Err tz_naive_err
  else if now.instant < e.updated_at.instant then Result.Err order_err
  else Result.Ok
    { e with archived_at := some now, version := e.version + 1, updated_at := now }

/-- Embeds `Entity.unarchive`: no-op if already active, otherwise the naive
and order guards, then `replace(self, archived_at=None,
version=self.version + 1, updated_at=now)`. -/
def unarchive (e : Entity V) (now : Datetime) : Result (Entity V) DomainError :=
  if e.archived_at = none then Result.Ok e
  else if now.isNaive then Result.Err tz_naive_err
  else if now.instant < e.updated_at.instant then Result.Err order_err
  else Result.Ok
    { e with archived_at := none, version := e.version + 1, updated_at := now }

end Entity

/-- The always-holding invariants of §3 of the design: time ordering
`created_at ≤ updated_at ≤ archived_at?` and `version ≥ 1`. -/
def EntityInvariant {V : Type} (e : Entity V) : Prop :=
  e.created_at.instant ≤ e.updated_at.instant
  ∧ (∀ a, e.archived_at = some a → e.updated_at.instant ≤ a.instant)
  ∧ 1 ≤ e.version

/-- Embeds `all_of` of `src/shared/modeling/value_object.py`: applies the
validators left to right to the same input, returning the first `Err`
produced; if none fails, returns `Ok` of the input value. -/
def all_of {α : Type} (validators : List (α → Result α DomainError)) (value : α) :
    Result α DomainError :=
  match validators with
  | [] => Result.Ok value
  | v :: rest =>
    let r := v value
    if r.is_err then r else all_of rest value

/-- The whitespace predicate of Python's `str.strip()`: the codepoints for
which `str.isspace()` is true — the ASCII whitespace controls 09-0D, the
information separators 1C-1F, the space, NEL (85), NBSP (A0), and the
Unicode space/line/paragraph separators 1680, 2000-200A, 2028, 2029, 202F,
205F and 3000. -/
def pyIsSpace (c : Char) : Bool :=
  [0x09, 0x0A, 0x0B, 0x0C, 0x0D, 0x1C, 0x1D, 0x1E, 0x1F, 0x20,
   0x85, 0xA0, 0x1680, 0x2000, 0x2001, 0x2002, 0x2003, 0x2004, 0x2005,
   0x2006, 0x2007, 0x2008, 0x2009, 0x200A, 0x2028, 0x2029, 0x202F, 0x205F,
   0x3000].contains c.toNat

/-- Embeds Python's `s.strip()`: drops whitespace from both ends.  Strings
are lists of characters. -/
def pyStrip (s : List Char) : List Char :=
  ((s.dropWhile pyIsSpace).reverse.dropWhile pyIsSpace).reverse

/-- Embeds `ensure_non_empty_str`: fails with the shared `vo_empty_err` when
`len(s.strip()) == 0`, otherwise returns the original string `s`. -/
def ensure_non_empty_str (s : List Char) : Result (List Char) DomainError :=
  if (pyStrip s).length = 0 then Result.Err vo_empty_err
  else Result.Ok s

/-! ## Helper lemmas -/

/-- The head of `insertSortedDedup x l` is `x` or the head of `l`. -/
theorem head_insertSortedDedup (x : String) (l : List String) :
    (insertSortedDedup x l).head? = some x ∨ (insertSortedDedup x l).head? = l.head? := by
  cases l with
  | nil => left; rfl
  | cons y ys =>
    unfold insertSortedDedup
    split_ifs with h1 h2
    · right; rfl
    · left; rfl
    · right; rfl

/-- Inserting into a strictly increasing list keeps it strictly
increasing. -/
theorem chain_insertSortedDedup (x : String) (l : List String)
    (hl : List.Chain' (fun a b => a < b) l) :
    List.Chain' (fun a b => a < b) (insertSortedDedup x l) := by
  induction l with
  | nil => simp [insertSortedDedup]
  | cons y ys ih =>
    rw [List.chain'_cons'] at hl
    unfold insertSortedDedup
    split_ifs with h1 h2
    · exact List.chain'_cons'.mpr hl
    · rw [List.chain'_cons']
      refine ⟨?_, List.chain'_cons'.mpr hl⟩
      intro z hz
      simp only [List.head?_cons, Option.mem_def, Option.some.injEq] at hz
      subst hz
      exact h2
    · rw [List.chain'_cons']
      refine ⟨?_, ih hl.2⟩
      intro z hz
      rcases head_insertSortedDedup x ys with hh | hh
      · rw [hh] at hz
        simp only [Option.mem_def, Option.some.injEq] at hz
        subst hz
        exact lt_of_le_of_ne (not_lt.mp h2) (fun q => h1 q.symm)
      · rw [hh] at hz
        exact hl.1 z hz

/-- Membership through `insertSortedDedup`. -/
theorem mem_insertSortedDedup (x s : String) (l : List String) :
    s ∈ insertSortedDedup x l ↔ s = x ∨ s ∈ l := by
  induction l with
  | nil => simp [insertSortedDedup]
  | cons y ys ih =>
    unfold insertSortedDedup
    split_ifs with h1 h2
    · subst h1
      simp [List.mem_cons]
    · simp [List.mem_cons]
    · simp [List.mem_cons, ih]
      tauto

/-- `sortedDedup` is strictly increasing, hence sorted and duplicate-free. -/
theorem chain_sortedDedup (l : List String) :
    List.Chain' (fun a b => a < b) (sortedDedup l) := by
  induction l with
  | nil => simp [sortedDedup]
  | cons x xs ih => exact chain_insertSortedDedup x _ ih

/-- `sortedDedup` preserves the set of elements. -/
theorem mem_sortedDedup (s : String) (l : List String) :
    s ∈ sortedDedup l ↔ s ∈ l := by
  induction l with
  | nil => simp [sortedDedup]
  | cons x xs ih =>
    show s ∈ insertSortedDedup x (sortedDedup xs) ↔ _
    rw [mem_insertSortedDedup]
    simp [ih, List.mem_cons]

/-- The event log of a `combine_all` fold is the in-order concatenation of
the inputs' logs. -/
theorem combine_all_events {Ev α : Type} (first : Tx Ev α) (rest : List (Tx Ev α)) :
    (combine_all first rest).events = first.events ++ (rest.map Tx.events).flatten := by
  induction rest generalizing first with
  | nil => simp [combine_all]
  | cons t ts ih =>
    show (combine_all (first.combine t) ts).events = _
    rw [ih]
    simp [Tx.combine, List.append_assoc]

/-- The state of a `combine_all` fold is the state of the last input. -/
theorem combine_all_state {Ev α : Type} (first : Tx Ev α) (rest : List (Tx Ev α)) :
    (combine_all first rest).state = (rest.getLastD first).state := by
  induction rest generalizing first with
  | nil => rfl
  | cons t ts ih =>
    show (combine_all (first.combine t) ts).state = _
    rw [ih, List.getLastD_cons]
    cases ts with
    | nil => rfl
    | cons u us => rfl

/-- Validators before the first failure do not change `all_of`'s answer. -/
theorem all_of_append_ok {α : Type} (pre tail : List (α → Result α DomainError)) (x : α)
    (hpre : ∀ u ∈ pre, (u x).is_err = false) :
    all_of (pre ++ tail) x = all_of tail x := by
  induction pre with
  | nil => rfl
  | cons u us ih =>
    have hu : (u x).is_err = false := hpre u (List.mem_cons_self u us)
    show (if (u x).is_err then u x else all_of (us ++ tail) x) = _
    rw [hu]
    simp only [Bool.false_eq_true, if_false]
    exact ih (fun w hw => hpre w (List.mem_cons_of_mem u hw))

/-! ## Claim theorems -/

/-- Claim C5: `Tx.bind` satisfies the writer-monad laws compared on both the
state and the full ordered event sequence — left identity
`Tx(a, []).bind(f) = f(a)`, right identity `t.bind(s ↦ Tx(s, [])) = t`, and
associativity — and `Tx.map` changes only the state, leaving the event
sequence and its order unchanged. -/
theorem tx_writer_monad_laws {Ev α β γ : Type} (a : α) (t : Tx Ev α)
    (f : α → Tx Ev β) (g : β → Tx Ev γ) (h : α → β) :
    (tx a []).bind f = f a
    ∧ t.bind (fun s => tx s []) = t
    ∧ (t.bind f).bind g = t.bind (fun s => (f s).bind g)
    ∧ (t.map h).state = h t.state
    ∧ (t.map h).events = t.events := by
  refine ⟨?_, ?_, ?_, rfl, rfl⟩
  · simp [Tx.bind, tx]
  · simp [Tx.bind, tx]
  · simp [Tx.bind, List.append_assoc]

/-- Claim C6: `Result` and `Maybe` satisfy the functor laws (`map id = self`
and `map f . map g = map (g ∘ f)`) and `and_then` satisfies the monad laws
(left identity, right identity, associativity) on both containers. -/
theorem result_maybe_laws {α β γ ε : Type} (r : Result α ε) (m : Maybe α)
    (f : α → β) (g : β → γ) (rf : α → Result β ε) (rg : β → Result γ ε)
    (mf : α → Maybe β) (mg : β → Maybe γ) (v : α) :
    r.map id = r
    ∧ (r.map f).map g = r.map (g ∘ f)
    ∧ (Result.Ok v).and_then rf = rf v
    ∧ r.and_then Result.Ok = r
    ∧ (r.and_then rf).and_then rg = r.and_then (fun x => (rf x).and_then rg)
    ∧ m.map id = m
    ∧ (m.map f).map g = m.map (g ∘ f)
    ∧ (Maybe.Some v).and_then mf = mf v
    ∧ m.and_then Maybe.Some = m
    ∧ (m.and_then mf).and_then mg = m.and_then (fun x => (mf x).and_then mg) := by
  refine ⟨?_, ?_, rfl, ?_, ?_, ?_, ?_, rfl, ?_, ?_⟩ <;>
    first
      | (cases r <;> simp [Result.map, Result.and_then])
      | (cases m <;> simp [Maybe.map, Maybe.and_then])

/-- Claim C7: for a non-empty argument list, `combine_all` returns a `Tx`
whose state is the last argument's state and whose events are the
concatenation of every input's events in argument order; on a single `Tx` it
is the identity; and `combine_all(Tx(10,[A]), Tx(20,[B]), Tx(30,[C]))` has
state `30` and events `[A, B, C]`, shown here for arbitrary states and
events in those positions. -/
theorem combine_all_spec {Ev α : Type} (first : Tx Ev α) (rest : List (Tx Ev α))
    (a b c : α) (ea eb ec : Ev) :
    (combine_all first rest).state = (rest.getLastD first).state
    ∧ (combine_all first rest).events = first.events ++ (rest.map Tx.events).flatten
    ∧ combine_all first [] = first
    ∧ combine_all (tx a [ea]) [tx b [eb], tx c [ec]] = tx c [ea, eb, ec] :=
  ⟨combine_all_state first rest, combine_all_events first rest, rfl, rfl⟩

/-- Claim C8 (amended): `all_of` runs the validators left to right and
returns the first failure any of them produces, with later validators never
influencing the answer; when every validator succeeds it returns `Ok` of the
original input value (not the last validator's own success value). -/
theorem all_of_spec {α : Type} (validators pre post : List (α → Result α DomainError))
    (v : α → Result α DomainError) (x : α) :
    (validators = pre ++ v :: post →
      (∀ u ∈ pre, (u x).is_err = false) →
      (v x).is_err = true →
      all_of validators x = v x)
    ∧ ((∀ u ∈ validators, (u x).is_err = false) →
      all_of validators x = Result.Ok x) := by
  constructor
  · intro heq hpre hv
    subst heq
    rw [all_of_append_ok pre (v :: post) x hpre]
    show (if (v x).is_err then v x else all_of post x) = v x
    rw [hv]
    simp
  · intro hall
    induction validators with
    | nil => rfl
    | cons u us ih =>
      have hu : (u x).is_err = false := hall u (List.mem_cons_self u us)
      show (if (u x).is_err then u x else all_of us x) = Result.Ok x
      rw [hu]
      simp only [Bool.false_eq_true, if_false]
      exact ih (fun w hw => hall w (List.mem_cons_of_mem u hw))

/-- Claim C8 witness: with a passing validator before a failing one and a
further validator after it, `all_of` surfaces exactly the first failure. -/
theorem all_of_spec_witness :
    all_of [fun n : Nat => Result.Ok (n + 1),
            fun _ : Nat => Result.Err vo_empty_err,
            fun _ : Nat => Result.Err order_err] 0
      = Result.Err vo_empty_err :=
  (all_of_spec [fun n : Nat => Result.Ok (n + 1),
      fun _ : Nat => Result.Err vo_empty_err,
      fun _ : Nat => Result.Err order_err]
    [fun n : Nat => Result.Ok (n + 1)]
    [fun _ : Nat => Result.Err order_err]
    (fun _ : Nat => Result.Err vo_empty_err) 0).1 rfl (by decide) (by decide)

/-- Claim C8 counterexample: a validator may succeed with a value different
from its input; `all_of` then returns `Ok` of the original input, not the
success of the last validator, refuting the claim as stated. -/
theorem all_of_counterexample :
    all_of [fun n : Nat => Result.Ok (n + 1)] 0 = Result.Ok 0
    ∧ (fun n : Nat => Result.Ok (ε := DomainError) (n + 1)) 0 = Result.Ok 1
    ∧ (Result.Ok 0 : Result Nat DomainError) ≠ Result.Ok 1 :=
  ⟨rfl, rfl, by decide⟩

/-- Claim C9: `ensure_non_empty_str` fails, always with the one shared
`vo_empty` error, exactly when the string has zero length after trimming
whitespace; on success it returns the original untrimmed string unchanged. -/
theorem ensure_non_empty_spec (s : List Char) :
    (ensure_non_empty_str s = Result.Err vo_empty_err ↔ (pyStrip s).length = 0)
    ∧ ((pyStrip s).length ≠ 0 → ensure_non_empty_str s = Result.Ok s)
    ∧ vo_empty_err.code = "vo_empty" := by
  unfold ensure_non_empty_str
  by_cases h : (pyStrip s).length = 0
  · exact ⟨by simp [h], by simp [h], rfl⟩
  · exact ⟨by simp [h], by simp [h], rfl⟩

/-- Claim C9 witness: a string that is non-empty after trimming passes and
comes back untrimmed. -/
theorem ensure_non_empty_spec_witness :
    ensure_non_empty_str [' ', 'a', ' '] = Result.Ok [' ', 'a', ' '] :=
  (ensure_non_empty_spec [' ', 'a', ' ']).2.1 (by decide)

/-- Claim C10, evaluated at the failing input: `to_optional` does map both
`Nothing` and `Some(None)` to the native null, and `Some(None)` does
round-trip to `Nothing` — but the claimed round-trip identity away from
`Some(None)` is false of the code: on `Some(some 3)` the bridge reaches the
positional call `Some(value)` on the `kw_only` dataclass and raises
`TypeError` instead of returning `Some(some 3)`, contradicting the
function's own docstring and the repository's round-trip test. -/
theorem nullable_bridge_code_bug :
    Maybe.from_optional (Maybe.to_optional (Maybe.Some (some (3 : Nat))))
      = Except.error PyExn.typeError
    ∧ Maybe.from_optional (Maybe.to_optional (Maybe.Some (none : Option Nat)))
      = Except.ok Maybe.Nothing
    ∧ Maybe.from_optional (Maybe.to_optional (Maybe.Nothing : Maybe (Option Nat)))
      = Except.ok Maybe.Nothing
    ∧ Maybe.to_optional (Maybe.Some (none : Option Nat)) = none
    ∧ Maybe.to_optional (Maybe.Nothing : Maybe (Option Nat)) = none
    ∧ (Maybe.Some (none : Option Nat)) ≠ (Maybe.Nothing : Maybe (Option Nat)) :=
  ⟨rfl, rfl, rfl, rfl, rfl, by decide⟩

/-- A non-nil list has `isEmpty = false`. -/
theorem isEmpty_false_of_ne_nil {β : Type} {l : List β} (h : l ≠ []) :
    ¬ l.isEmpty = true := by
  cases l with
  | nil => exact absurd rfl h
  | cons a as => simp

/-- Claim C1: the guards of `Entity.update` fire in exactly the source's
order — archived entity, empty-changes no-op (which skips even timestamp
validation), reserved fields (with the offending names sorted and
de-duplicated in the message), naive timestamp, timestamp order — and on
success the changes are applied with `version + 1` and `updated_at = now`. -/
theorem update_spec {V : Type} (e : Entity V) (now : Datetime)
    (changes : List (String × V)) :
    (e.archived_at ≠ none →
      e.update now changes = Result.Err archived_modify_err
      ∧ archived_modify_err.code = "archived_entity")
    ∧ (e.archived_at = none → changes = [] →
      e.update now changes = Result.Ok e)
    ∧ (e.archived_at = none → changes ≠ [] → badFields changes ≠ [] →
      e.update now changes = Result.Err (immutable_field_err (badFields changes))
      ∧ (immutable_field_err (badFields changes)).code = "immutable_field"
      ∧ (immutable_field_err (badFields changes)).message
          = "immutable fields cannot be changed: "
            ++ String.intercalate ", " (sortedDedup (badFields changes))
      ∧ List.Chain' (fun p q => p < q) (sortedDedup (badFields changes))
      ∧ (∀ s, s ∈ sortedDedup (badFields changes) ↔ s ∈ badFields changes))
    ∧ (e.archived_at = none → changes ≠ [] → badFields changes = [] →
      now.isNaive →
      e.update now changes = Result.Err tz_naive_err
      ∧ tz_naive_err.code = "timestamp_naive")
    ∧ (e.archived_at = none → changes ≠ [] → badFields changes = [] →
      ¬ now.isNaive → now.instant < e.updated_at.instant →
      e.update now changes = Result.Err order_err
      ∧ order_err.code = "timestamp_order")
    ∧ (e.archived_at = none → changes ≠ [] → badFields changes = [] →
      ¬ now.isNaive → ¬ now.instant < e.updated_at.instant →
      e.update now changes
        = Result.Ok { e with version := e.version + 1, updated_at := now,
                             extra := Entity.applyChanges e.extra changes }) := by
  refine ⟨?_, ?_, ?_, ?_, ?_, ?_⟩
  · intro h1
    exact ⟨by unfold Entity.update; rw [if_pos h1], rfl⟩
  · intro h1 h2
    subst h2
    simp [Entity.update, h1]
  · intro h1 h2 h3
    refine ⟨?_, rfl, rfl, chain_sortedDedup _, fun s => mem_sortedDedup s _⟩
    unfold Entity.update
    rw [if_neg (by simp [h1]), if_neg (isEmpty_false_of_ne_nil h2), if_pos h3]
  · intro h1 h2 h3 h4
    refine ⟨?_, rfl⟩
    unfold Entity.update
    rw [if_neg (by simp [h1]), if_neg (isEmpty_false_of_ne_nil h2),
        if_neg (by simp [h3]), if_pos h4]
  · intro h1 h2 h3 h4 h5
    refine ⟨?_, rfl⟩
    unfold Entity.update
    rw [if_neg (by simp [h1]), if_neg (isEmpty_false_of_ne_nil h2),
        if_neg (by simp [h3]), if_neg h4, if_pos h5]
  · intro h1 h2 h3 h4 h5
    unfold Entity.update
    rw [if_neg (by simp [h1]), if_neg (isEmpty_false_of_ne_nil h2),
        if_neg (by simp [h3]), if_neg h4, if_neg h5]

/-- Claim C1 witness: touching `updated_at` and (twice) `id` on an active
entity is rejected with code `immutable_field` and a sorted, de-duplicated
field list in the message. -/
theorem update_spec_witness :
    Entity.update (V := Nat)
      { id := 1, version := 3,
        created_at := { instant := 0, tzinfo := some (some 0) },
        updated_at := { instant := 0, tzinfo := some (some 0) },
        archived_at := none, extra := fun _ => 0 }
      { instant := 5, tzinfo := some (some 0) }
      [("updated_at", 9), ("id", 9), ("id", 9)]
      = Result.Err (immutable_field_err ["updated_at", "id", "id"])
    ∧ (immutable_field_err ["updated_at", "id", "id"]).message
        = "immutable fields cannot be changed: id, updated_at" := by
  refine ⟨((update_spec _ _ _).2.2.1 (by decide) (by decide) (by decide)).1, ?_⟩
  have h : sortedDedup ["updated_at", "id", "id"] = ["id", "updated_at"] := by
    simp [sortedDedup, insertSortedDedup]
    decide
  show "immutable fields cannot be changed: "
      ++ String.intercalate ", " (sortedDedup ["updated_at", "id", "id"]) = _
  rw [h]
  rfl

/-- Claim C2: `Entity.create` on a timezone-aware instant succeeds with
`version = 1`, `created_at = updated_at = now` and `archived_at = none`;
on a naive instant it fails with code `timestamp_naive`. -/
theorem create_spec {V : Type} (now : Datetime) (i : Nat) (fields : String → V) :
    (¬ now.isNaive →
      Entity.create now i fields
        = Result.Ok { id := i, version := 1, created_at := now,
                      updated_at := now, archived_at := none, extra := fields })
    ∧ (now.isNaive →
      Entity.create now i fields = Result.Err tz_naive_err
      ∧ tz_naive_err.code = "timestamp_naive") := by
  constructor
  · intro hn
    unfold Entity.create
    rw [if_neg hn]
  · intro hn
    exact ⟨by unfold Entity.create; rw [if_pos hn], rfl⟩

/-- Claim C2 witness: creation at an aware instant. -/
theorem create_spec_witness :
    Entity.create { instant := 0, tzinfo := some (some 0) } 7 (fun _ => (0 : Nat))
      = Result.Ok
        { id := 7, version := 1,
          created_at := { instant := 0, tzinfo := some (some 0) },
          updated_at := { instant := 0, tzinfo := some (some 0) },
          archived_at := none, extra := fun _ => (0 : Nat) } :=
  (create_spec { instant := 0, tzinfo := some (some 0) } 7 (fun _ => (0 : Nat))).1
    (by decide)

/-- Claim C3: `archive` on an already-archived entity and `unarchive` on an
already-active entity return `Ok` of the unchanged entity — hence identical
`archived_at` and `version` — for every instant whatsoever, naive or
out-of-order included, bypassing all timestamp validation. -/
theorem archive_unarchive_idempotent {V : Type} (e : Entity V) (t2 : Datetime) :
    (e.archived_at ≠ none → e.archive t2 = Result.Ok e)
    ∧ (e.archived_at = none → e.unarchive t2 = Result.Ok e) := by
  constructor
  · intro h
    unfold Entity.archive
    rw [if_pos h]
  · intro h
    unfold Entity.unarchive
    rw [if_pos h]

/-- Claim C3 witness: archiving an already-archived entity with a naive,
out-of-order instant still returns the unchanged entity. -/
theorem archive_unarchive_idempotent_witness :
    Entity.archive (V := Nat)
      { id := 1, version := 4,
        created_at := { instant := 0, tzinfo := some (some 0) },
        updated_at := { instant := 3, tzinfo := some (some 0) },
        archived_at := some { instant := 3, tzinfo := some (some 0) },
        extra := fun _ => 0 }
      { instant := -7, tzinfo := none }
      = Result.Ok
      { id := 1, version := 4,
        created_at := { instant := 0, tzinfo := some (some 0) },
        updated_at := { instant := 3, tzinfo := some (some 0) },
        archived_at := some { instant := 3, tzinfo := some (some 0) },
        extra := fun _ => 0 } :=
  (archive_unarchive_idempotent _ _).1 (by decide)

/-- Claim C4: every entity produced by `create`, or by a successful
`update`/`archive`/`unarchive` from an entity satisfying the invariants,
again satisfies `created_at ≤ updated_at` (`≤ archived_at` when present) and
`version ≥ 1`; each successful mutating transition bumps `version` by
exactly 1; and no operation changes `id` or `created_at`. -/
theorem entity_invariants {V : Type} (e e2 : Entity V) (now : Datetime) (i : Nat)
    (fields : String → V) (changes : List (String × V)) (h : EntityInvariant e) :
    (Entity.create now i fields = Result.Ok e2 → EntityInvariant e2)
    ∧ (e.update now changes = Result.Ok e2 →
        EntityInvariant e2 ∧ e2.id = e.id ∧ e2.created_at = e.created_at
        ∧ (changes ≠ [] → e2.version = e.version + 1))
    ∧ (e.archive now = Result.Ok e2 →
        EntityInvariant e2 ∧ e2.id = e.id ∧ e2.created_at = e.created_at
        ∧ (e.archived_at = none → e2.version = e.version + 1))
    ∧ (e.unarchive now = Result.Ok e2 →
        EntityInvariant e2 ∧ e2.id = e.id ∧ e2.created_at = e.created_at
        ∧ (e.archived_at ≠ none → e2.version = e.version + 1)) := by
  obtain ⟨hcu, hua, hv⟩ := h
  refine ⟨?_, ?_, ?_, ?_⟩
  · intro hok
    unfold Entity.create at hok
    by_cases hn : now.isNaive
    · rw [if_pos hn] at hok
      simp at hok
    · rw [if_neg hn] at hok
      injection hok with hok
      subst hok
      exact ⟨le_refl _, by simp, by norm_num⟩
  · intro hok
    unfold Entity.update at hok
    by_cases c1 : e.archived_at ≠ none
    · rw [if_pos c1] at hok
      simp at hok
    · rw [if_neg c1] at hok
      by_cases c2 : changes.isEmpty = true
      · rw [if_pos c2] at hok
        injection hok with hok
        subst hok
        have hch : changes = [] := by
          cases changes with
          | nil => rfl
          | cons p ps => simp at c2
        exact ⟨⟨hcu, hua, hv⟩, rfl, rfl, fun hne => absurd hch hne⟩
      · rw [if_neg c2] at hok
        by_cases c3 : badFields changes ≠ []
        · rw [if_pos c3] at hok
          simp at hok
        · rw [if_neg c3] at hok
          by_cases c4 : now.isNaive
          · rw [if_pos c4] at hok
            simp at hok
          · rw [if_neg c4] at hok
            by_cases c5 : now.instant < e.updated_at.instant
            · rw [if_pos c5] at hok
              simp at hok
            · rw [if_neg c5] at hok
              injection hok with hok
              subst hok
              refine ⟨⟨le_trans hcu (not_lt.mp c5), ?_,
                  show (1 : Int) ≤ e.version + 1 by omega⟩, rfl, rfl,
                fun _ => rfl⟩
              intro a ha
              rw [not_not.mp c1] at ha
              simp at ha
  · intro hok
    unfold Entity.archive at hok
    by_cases c1 : e.archived_at ≠ none
    · rw [if_pos c1] at hok
      injection hok with hok
      subst hok
      exact ⟨⟨hcu, hua, hv⟩, rfl, rfl, fun hnone => absurd hnone c1⟩
    · rw [if_neg c1] at hok
      by_cases c4 : now.isNaive
      · rw [if_pos c4] at hok
        simp at hok
      · rw [if_neg c4] at hok
        by_cases c5 : now.instant < e.updated_at.instant
        · rw [if_pos c5] at hok
          simp at hok
        · rw [if_neg c5] at hok
          injection hok with hok
          subst hok
          refine ⟨⟨le_trans hcu (not_lt.mp c5), ?_,
              show (1 : Int) ≤ e.version + 1 by omega⟩, rfl, rfl,
            fun _ => rfl⟩
          intro a ha
          simp at ha
          subst ha
          exact le_refl _
  · intro hok
    unfold Entity.unarchive at hok
    by_cases c1 : e.archived_at = none
    · rw [if_pos c1] at hok
      injection hok with hok
      subst hok
      exact ⟨⟨hcu, hua, hv⟩, rfl, rfl, fun hne => absurd c1 hne⟩
    · rw [if_neg c1] at hok
      by_cases c4 : now.isNaive
      · rw [if_pos c4] at hok
        simp at hok
      · rw [if_neg c4] at hok
        by_cases c5 : now.instant < e.updated_at.instant
        · rw [if_pos c5] at hok
          simp at hok
        · rw [if_neg c5] at hok
          injection hok with hok
          subst hok
          refine ⟨⟨le_trans hcu (not_lt.mp c5), ?_,
              show (1 : Int) ≤ e.version + 1 by omega⟩, rfl, rfl,
            fun _ => rfl⟩
          intro a ha
          simp at ha

/-- Claim C4 witness: archiving a valid active entity yields an entity that
satisfies the invariants (with `version` bumped from 1 to 1 + 1). -/
theorem entity_invariants_witness :
    EntityInvariant
      { id := 1, version := (1 : Int) + 1,
        created_at := { instant := 0, tzinfo := some (some 0) },
        updated_at := { instant := 5, tzinfo := some (some 0) },
        archived_at := some { instant := 5, tzinfo := some (some 0) },
        extra := fun _ => (0 : Nat) } :=
  ((entity_invariants
      { id := 1, version := 1,
        created_at := { instant := 0, tzinfo := some (some 0) },
        updated_at := { instant := 0, tzinfo := some (some 0) },
        archived_at := none, extra := fun _ => (0 : Nat) }
      { id := 1, version := (1 : Int) + 1,
        created_at := { instant := 0, tzinfo := some (some 0) },
        updated_at := { instant := 5, tzinfo := some (some 0) },
        archived_at := some { instant := 5, tzinfo := some (some 0) },
        extra := fun _ => (0 : Nat) }
      { instant := 5, tzinfo := some (some 0) }
      1 (fun _ => (0 : Nat)) []
      ⟨by decide, by simp, by decide⟩).2.2.1 (by rfl)).1

end Makgora
